import Mathlib

/-!
# autorestart: change detection, listener fan-out and self-restart

A shallow embedding of `autorestart.go`.  The package keeps its state in
package-level variables; here they are the fields of `World`.  Everything the
package asks of its surroundings in one tick (the answer of `os.Stat`, of
`exec.LookPath`, of `syscall.Exec`, of `cmd.Run`, whether a listener reads its
channel, the value of `runtime.GOOS`) is a field of `Env`.  Every effect the
package performs is appended to `World.trace`.
-/

namespace Autorestart

/-! ## Data model -/

/-- Value of a `time.Time`: Go compares two of them with `!=` field by field
(`wall`, `ext` and the location pointer `loc`). -/
structure Time where
  wall : Nat
  ext : Int
  loc : Nat
  deriving DecidableEq, Repr

/-- What an `os.FileInfo` answers; the package reads `ModTime()` and `Size()` only. -/
structure FileInfo where
  Name : String
  Size : Int
  Mode : Nat
  ModTime : Time
  IsDir : Bool
  deriving DecidableEq, Repr

/-- Identity of a `chan bool` created by `make(chan bool)`. -/
abbrev Chan := Nat

/-- Effects on the operating system: what a restart strategy does, and the log. -/
inductive SysEvent where
  /-- Output of `log.Printf` / `log.Println`. -/
  | log (msg : String)
  /-- Call of `time.Sleep` with a duration in nanoseconds. -/
  | sleep (ns : Int)
  /-- Call of `syscall.Exec(argv0, argv, envv)`. -/
  | exec (argv0 : String) (argv : List String) (envv : List String)
  /-- Call of `exec.Command(name, args...).Run()`. -/
  | run (name : String) (args : List String)
  /-- Call of `os.Exit(code)`. -/
  | exit (code : Int)
  deriving DecidableEq, Repr

/-- Effects of the package, in the order they happen. -/
inductive Event where
  /-- An effect on the operating system. -/
  | sys (e : SysEvent)
  /-- The statement `c <- true` is reached: the send on `c` is attempted. -/
  | send (c : Chan)
  /-- The listener of `c` received the value: the send on `c` completed. -/
  | recv (c : Chan)
  /-- The function value held by `RestartFunc` is called. -/
  | callRestartFunc
  deriving DecidableEq, Repr

/-- How a call ends. -/
inductive Outcome where
  /-- The call returned to its caller. -/
  | returned
  /-- The goroutine is blocked on a channel send that nobody receives. -/
  | blocked
  /-- The process ended in `os.Exit(code)`. -/
  | exited (code : Int)
  /-- The call of `syscall.Exec` succeeded: the process image was replaced. -/
  | replaced
  deriving DecidableEq, Repr

/-- The constant `time.Second`: a `time.Duration` (an `int64`) counts nanoseconds. -/
def second : Int := 1000000000

/-- The constant `defaultPeriod = time.Second * 1`. -/
def defaultPeriod : Int := second * 1

/-- The package-level variables (the function-valued `RestartFunc` and the
ticker apart), the allocation counter of channels and the trace of effects. -/
structure World where
  WatchFilename : String
  WatchPeriod : Int
  /-- Current contents of the slice `executableArgs`.  The slice is the header
  of `os.Args` copied at `init`, so it shares the backing array of `os.Args`:
  its length is fixed, its elements are whatever that array holds now. -/
  executableArgs : List String
  executableEnvs : List String
  executablePath : String
  startFileInfo : Option FileInfo
  listeners : List Chan
  /-- Number of channels allocated so far; the next `make(chan bool)` gets this identity. -/
  nextChan : Nat
  trace : List Event
  deriving DecidableEq, Repr

/-- The surroundings of the package during one tick. -/
structure Env where
  /-- The constant `runtime.GOOS`. -/
  GOOS : String
  /-- Answer of `os.Stat(name)`: the file info, or the error's text. -/
  stat : String → Except String FileInfo
  /-- Whether the listener holding the channel receives from it. -/
  consumes : Chan → Bool
  /-- Answer of `exec.LookPath(file)`: the resolved binary, or the error's text. -/
  lookPath : String → Except String String
  /-- Answer of `syscall.Exec`: `none` when the image was replaced (the call
  does not return), the error's text when it failed. -/
  exec : String → List String → List String → Option String
  /-- Answer of `cmd.Run()` for `exec.Command(name, args...)`: `none` for a nil error. -/
  run : String → List String → Option String

/-- Append one effect to the trace. -/
def World.emit (w : World) (e : Event) : World :=
  { w with trace := w.trace ++ [e] }

/-- Append several effects to the trace. -/
def World.emitAll (w : World) (es : List Event) : World :=
  { w with trace := w.trace ++ es }

/-- The effects that happened between world `w` and the later world `w2`. -/
def newEvents (w w2 : World) : List Event :=
  w2.trace.drop w.trace.length

/-- Type of a restart strategy (`func()`): it reads the package state, performs
effects on the operating system and either returns or ends the process. -/
abbrev RestartFn := Env → World → Outcome × List SysEvent

/-! ## The package's functions -/

/-- The package's `init`: `executableArgs = os.Args` copies the slice header
(no element is copied: the backing array stays shared with `os.Args`, see
`Op.writeOsArg`), `executableEnvs = os.Environ()` is a slice of its own, the
executable path is `filepath.Abs(os.Args[0])` (error ignored) and is the
default watched file.  `os.Args[0]` panics on an empty `os.Args`: `none`.
The initialisers `WatchPeriod = defaultPeriod` of the `var` block are applied too. -/
def init (osArgs osEnviron : List String) (filepathAbs : String → String) : Option World :=
  match osArgs with
  | [] => none
  | arg0 :: _ =>
    some { WatchFilename := filepathAbs arg0
           WatchPeriod := defaultPeriod
           executableArgs := osArgs
           executableEnvs := osEnviron
           executablePath := filepathAbs arg0
           startFileInfo := none
           listeners := []
           nextChan := 0
           trace := [] }

/-- Function `GetNotifier`: a new unbuffered channel is made, appended to `listeners` and returned. -/
def GetNotifier (w : World) : Chan × World :=
  let c := w.nextChan
  (c, { w with nextChan := w.nextChan + 1, listeners := w.listeners ++ [c] })

/-- Function `isChangedByStat`: the stat of the watched file against the stored baseline. -/
def isChangedByStat (env : Env) (w : World) : Bool × World :=
  match env.stat w.WatchFilename with
  | .ok fileinfo =>
    match w.startFileInfo with
    | none => (false, { w with startFileInfo := some fileinfo })
    | some start =>
      if start.ModTime ≠ fileinfo.ModTime ∨ start.Size ≠ fileinfo.Size then
        (true, w)
      else
        (false, w)
  | .error err =>
    (false, w.emit (.sys (.log ("cannot find " ++ w.WatchFilename ++ ": " ++ err))))

/-- Function `isChanged`. -/
def isChanged (env : Env) (w : World) : Bool × World :=
  isChangedByStat env w

/-- The loop `for _, c := range listeners { c <- true }` over the remaining channels. -/
def notifyLoop (env : Env) : List Chan → World → Outcome × World
  | [], w => (.returned, w)
  | c :: cs, w =>
    if env.consumes c then
      notifyLoop env cs ((w.emit (.send c)).emit (.recv c))
    else
      (.blocked, w.emit (.send c))

/-- Function `notify`: one blocking send per registered channel, in registration order. -/
def notify (env : Env) (w : World) : Outcome × World :=
  notifyLoop env w.listeners w

/-- Function `RestartUnderWindows`: the returned error (`none` for nil) and the effects. -/
def RestartUnderWindows (env : Env) (w : World) (binary : String) :
    Option String × List SysEvent :=
  let s := ["/C", "start", binary]
  let s := s ++ w.executableArgs
  match env.run "cmd.exe" s with
  | some err => (some err, [.run "cmd.exe" s, .log ("error: " ++ binary ++ " " ++ err)])
  | none => (none, [.run "cmd.exe" s])

/-- Function `RestartByExec`: the default restart strategy. -/
def RestartByExec : RestartFn := fun env w =>
  match env.lookPath w.executablePath with
  | .error err => (.returned, [.log ("Error: " ++ err)])
  | .ok binary =>
    let slept : List SysEvent := [.sleep (1 * second)]
    if env.GOOS = "windows" then
      match RestartUnderWindows env w binary with
      | (some _, evs) => (.returned, slept ++ evs)
      | (none, evs) => (.exited 1, slept ++ evs ++ [.log "exiting ...", .exit 1])
    else
      let tried := slept ++ [.exec binary w.executableArgs w.executableEnvs]
      match env.exec binary w.executableArgs w.executableEnvs with
      | some execErr => (.returned, tried ++ [.log ("error: " ++ binary ++ " " ++ execErr)])
      | none => (.replaced, tried)

/-- Initial value of the variable `RestartFunc`: `RestartFunc = RestartByExec`. -/
def RestartFunc : RestartFn := RestartByExec

/-- One iteration of the loop of `watcher`, `restartFunc` being the value of
the variable `RestartFunc` at that time. -/
def watcherTick (restartFunc : RestartFn) (env : Env) (w : World) : Outcome × World :=
  match isChanged env w with
  | (true, w1) =>
    match notify env w1 with
    | (.returned, w2) =>
      let w3 := w2.emit .callRestartFunc
      let r := restartFunc env w3
      (r.1, w3.emitAll (r.2.map .sys))
    | (o, w2) => (o, w2)
  | (false, w1) => (.returned, w1)

/-- What one tick of the ticker meets: the current value of `RestartFunc` and the surroundings. -/
structure Tick where
  RestartFunc : RestartFn
  env : Env

/-- Function `watcher` over the ticks delivered so far: `returned` stands for the loop
waiting for the next tick; any other outcome ends the loop. -/
def watcher : List Tick → World → Outcome × World
  | [], w => (.returned, w)
  | t :: ts, w =>
    match watcherTick t.RestartFunc t.env w with
    | (.returned, w2) => watcher ts w2
    | r => r

/-- Successive calls of `isChangedByStat`, one per environment; the world after the last. -/
def polls : List Env → World → World
  | [], w => w
  | e :: es, w => polls es (isChangedByStat e w).2

/-! ## Reading a trace -/

/-- Trace of a fan-out in which every listener of `cs` reads: for each channel
in turn, the send and then its reception. -/
def handshakes : List Chan → List Event
  | [] => []
  | c :: cs => .send c :: .recv c :: handshakes cs

/-- The channels on which a send was attempted, in order. -/
def sendsOf : List Event → List Chan
  | [] => []
  | .send c :: es => c :: sendsOf es
  | _ :: es => sendsOf es

/-- The channels on which a signal was received, in order. -/
def recvsOf : List Event → List Chan
  | [] => []
  | .recv c :: es => c :: recvsOf es
  | _ :: es => recvsOf es

/-- Number of calls of the `RestartFunc` variable in a trace. -/
def restartCalls (es : List Event) : Nat :=
  es.count .callRestartFunc

/-- The channels signalled by `n` complete fan-outs over the registry `cs`:
`cs` repeated `n` times. -/
def rounds : Nat → List Chan → List Chan
  | 0, _ => []
  | n + 1, cs => cs ++ rounds n cs

/-- Channels are allocated in increasing order: every registered channel was
allocated before, and no channel is registered twice. -/
def World.WellFormed (w : World) : Prop :=
  (∀ c ∈ w.listeners, c < w.nextChan) ∧ w.listeners.Nodup

/-- What happens to the package during the life of the process: the host
registers a listener, the host assigns `WatchFilename`, the host writes an
element of `os.Args` in place, or the ticker fires. -/
inductive Op where
  | getNotifier
  | setWatchFilename (name : String)
  /-- The host stores `v` in cell `i` of the backing array of `os.Args`
  (`os.Args[i] = v`, or the element copies of
  `os.Args = append(os.Args[:1], os.Args[2:]...)`).  The array is the one
  `executableArgs` points to, so element `i` of `executableArgs` changes when
  `i` is within its length. -/
  | writeOsArg (i : Nat) (v : String)
  | tick (t : Tick)

/-- World after one operation. -/
def Op.apply : Op → World → World
  | .getNotifier, w => (GetNotifier w).2
  | .setWatchFilename name, w => { w with WatchFilename := name }
  | .writeOsArg i v, w => { w with executableArgs := w.executableArgs.set i v }
  | .tick t, w => (watcherTick t.RestartFunc t.env w).2

/-- The argument list after the in-place writes of a sequence of operations. -/
def argWrites : List Op → List String → List String
  | [], a => a
  | .writeOsArg i v :: ops, a => argWrites ops (a.set i v)
  | _ :: ops, a => argWrites ops a

/-- Whether the operation writes cell `i` of the backing array of `os.Args`. -/
def Op.writesArg : Op → Nat → Bool
  | .writeOsArg j _, i => j == i
  | _, _ => false

/-- Whether the tick's stat of the file `name` succeeds with a snapshot that
differs from `S0` in modification time or in size. -/
def seesChange (S0 : FileInfo) (name : String) (t : Tick) : Bool :=
  match t.env.stat name with
  | .ok Sk => decide (Sk.ModTime ≠ S0.ModTime ∨ Sk.Size ≠ S0.Size)
  | .error _ => false

/-- World after a sequence of operations. -/
def applyOps : List Op → World → World
  | [], w => w
  | op :: ops, w => applyOps ops (op.apply w)

/-- The launch descriptor: current arguments, captured environment, executable path. -/
def World.launch (w : World) : List String × List String × String :=
  (w.executableArgs, w.executableEnvs, w.executablePath)

/-- The calls of `syscall.Exec` in a trace, with their three arguments. -/
def execsOf : List SysEvent → List (String × List String × List String)
  | [] => []
  | .exec b a e :: es => (b, a, e) :: execsOf es
  | _ :: es => execsOf es

/-! ## Concrete inputs -/

/-- A snapshot with the given modification second and size. -/
def snapshot (sec : Int) (size : Int) : FileInfo :=
  { Name := "app", Size := size, Mode := 493, ModTime := { wall := 0, ext := sec, loc := 1 }, IsDir := false }

/-- Surroundings in which every system call fails and no listener reads. -/
def deadEnv : Env :=
  { GOOS := "linux"
    stat := fun _ => .error "no such file or directory"
    consumes := fun _ => false
    lookPath := fun _ => .error "not found"
    exec := fun _ _ _ => some "exec format error"
    run := fun _ _ => some "spawn failed" }

/-- Surroundings of a tick in which `os.Stat` answers `fi` and every listener reads. -/
def statEnv (fi : FileInfo) : Env :=
  { deadEnv with stat := fun _ => .ok fi, consumes := fun _ => true }

/-- World of a process started as `app -v` with environment `HOME=/root`. -/
def startWorld : World :=
  { WatchFilename := "/srv/app"
    WatchPeriod := defaultPeriod
    executableArgs := ["app", "-v"]
    executableEnvs := ["HOME=/root"]
    executablePath := "/srv/app"
    startFileInfo := none
    listeners := []
    nextChan := 0
    trace := [] }

/-- The world `startWorld` once the baseline `snapshot 100 2048` is stored. -/
def watchedWorld : World :=
  { startWorld with startFileInfo := some (snapshot 100 2048) }

/-- The world `watchedWorld` with two registered listeners. -/
def listenedWorld : World :=
  { watchedWorld with listeners := [0, 1], nextChan := 2 }

/-- Surroundings of a Windows host on which the path resolves to `/srv/app.exe`
and `cmd.exe` starts the new process. -/
def windowsEnv : Env :=
  { deadEnv with
    GOOS := "windows"
    lookPath := fun _ => .ok "/srv/app.exe"
    run := fun _ _ => none }

/-- Surroundings of a Linux host on which the path resolves to `/srv/app` and
`syscall.Exec` replaces the image. -/
def linuxEnv : Env :=
  { deadEnv with
    lookPath := fun _ => .ok "/srv/app"
    exec := fun _ _ _ => none }

/-- A tick that sees the snapshot (200, 2048), with reading listeners, and in
which the default strategy cannot resolve the executable path. -/
def retryTick : Tick :=
  { RestartFunc := RestartFunc, env := statEnv (snapshot 200 2048) }

/-- A tick that sees the snapshot of the baseline, (100, 2048): nothing changed. -/
def quietTick : Tick :=
  { RestartFunc := RestartFunc, env := statEnv (snapshot 100 2048) }

/-- A tick in which the stat of the watched file fails and nobody reads. -/
def goneTick : Tick :=
  { RestartFunc := RestartFunc, env := deadEnv }

/-- World of a process started as `app -v -p 80`, right after `init`. -/
def portWorld : World :=
  { startWorld with executableArgs := ["app", "-v", "-p", "80"] }

/-! ## The snapshot comparator -/

theorem isChangedByStat_WatchFilename (env : Env) (w : World) :
    (isChangedByStat env w).2.WatchFilename = w.WatchFilename := by
  unfold isChangedByStat
  cases env.stat w.WatchFilename with
  | error err => rfl
  | ok fileinfo =>
    cases w.startFileInfo with
    | none => rfl
    | some start => dsimp only; split <;> rfl

theorem isChangedByStat_keeps_baseline (env : Env) (w : World) (S0 : FileInfo)
    (h : w.startFileInfo = some S0) :
    (isChangedByStat env w).2.startFileInfo = some S0 := by
  unfold isChangedByStat
  cases env.stat w.WatchFilename with
  | error err => simpa [World.emit] using h
  | ok fileinfo =>
    rw [h]; dsimp only; split <;> exact h

theorem polls_WatchFilename (es : List Env) (w : World) :
    (polls es w).WatchFilename = w.WatchFilename := by
  induction es generalizing w with
  | nil => rfl
  | cons e es ih => rw [polls, ih, isChangedByStat_WatchFilename]

theorem polls_keeps_baseline (es : List Env) (w : World) (S0 : FileInfo)
    (h : w.startFileInfo = some S0) :
    (polls es w).startFileInfo = some S0 := by
  induction es generalizing w with
  | nil => exact h
  | cons e es ih => rw [polls]; exact ih _ (isChangedByStat_keeps_baseline e w S0 h)

theorem isChangedByStat_of_baseline (env : Env) (w : World) (S0 Sk : FileInfo)
    (hbase : w.startFileInfo = some S0) (hstat : env.stat w.WatchFilename = .ok Sk) :
    isChangedByStat env w = (decide (Sk.ModTime ≠ S0.ModTime ∨ Sk.Size ≠ S0.Size), w) := by
  unfold isChangedByStat
  rw [hstat, hbase]
  dsimp only
  by_cases h : S0.ModTime ≠ Sk.ModTime ∨ S0.Size ≠ Sk.Size
  · have h2 : Sk.ModTime ≠ S0.ModTime ∨ Sk.Size ≠ S0.Size := h.imp Ne.symm Ne.symm
    rw [if_pos h, decide_eq_true h2]
  · have h2 : ¬ (Sk.ModTime ≠ S0.ModTime ∨ Sk.Size ≠ S0.Size) := fun h3 => h (h3.imp Ne.symm Ne.symm)
    rw [if_neg h, decide_eq_false h2]

theorem isChangedByStat_of_error (env : Env) (w : World) (err : String)
    (h : env.stat w.WatchFilename = .error err) :
    isChangedByStat env w =
      (false, w.emit (.sys (.log ("cannot find " ++ w.WatchFilename ++ ": " ++ err)))) := by
  unfold isChangedByStat
  rw [h]

/-- C1: once a baseline `S0` is stored, any poll whose stat succeeds with `Sk`
reports a change exactly when `Sk` differs from `S0` in modification time or in
size, whatever polls happened in between; the world, and so the baseline `S0`,
is left as it was, and a later snapshot with the time and size of `S0` is
reported unchanged. -/
theorem isChangedByStat_compares_with_baseline (w : World) (S0 Sk : FileInfo)
    (between : List Env) (env : Env)
    (hbase : w.startFileInfo = some S0)
    (hstat : env.stat w.WatchFilename = .ok Sk) :
    isChangedByStat env (polls between w)
        = (decide (Sk.ModTime ≠ S0.ModTime ∨ Sk.Size ≠ S0.Size), polls between w)
      ∧ (isChangedByStat env (polls between w)).2.startFileInfo = some S0
      ∧ ∀ (env2 : Env) (S : FileInfo), env2.stat w.WatchFilename = .ok S →
          S.ModTime = S0.ModTime → S.Size = S0.Size →
          (isChangedByStat env2 (isChangedByStat env (polls between w)).2).1 = false := by
  have hb := polls_keeps_baseline between w S0 hbase
  have hs : env.stat (polls between w).WatchFilename = .ok Sk := by
    rw [polls_WatchFilename]; exact hstat
  have h1 := isChangedByStat_of_baseline env (polls between w) S0 Sk hb hs
  refine ⟨h1, ?_, ?_⟩
  · rw [h1]; exact hb
  · intro env2 S h2 ht hz
    have hs2 : env2.stat (polls between w).WatchFilename = .ok S := by
      rw [polls_WatchFilename]; exact h2
    rw [h1]
    dsimp only
    rw [isChangedByStat_of_baseline env2 (polls between w) S0 S hb hs2]
    simp [ht, hz]

/-- C1 at a concrete run: baseline (100, 2048), an intermediate poll seeing
(150, 4096), then a poll seeing (200, 2048). -/
theorem isChangedByStat_compares_with_baseline_witness :
    watchedWorld.startFileInfo = some (snapshot 100 2048)
      ∧ (statEnv (snapshot 200 2048)).stat watchedWorld.WatchFilename = .ok (snapshot 200 2048)
      ∧ isChangedByStat (statEnv (snapshot 200 2048)) (polls [statEnv (snapshot 150 4096)] watchedWorld)
          = (true, polls [statEnv (snapshot 150 4096)] watchedWorld) :=
  ⟨rfl, rfl,
    (isChangedByStat_compares_with_baseline watchedWorld (snapshot 100 2048) (snapshot 200 2048)
      [statEnv (snapshot 150 4096)] (statEnv (snapshot 200 2048)) rfl rfl).1.trans (by decide)⟩

theorem polls_of_failures (fails : List Env) (w : World)
    (hfail : ∀ e ∈ fails, ∃ err, e.stat w.WatchFilename = .error err) :
    (polls fails w).startFileInfo = w.startFileInfo
      ∧ (polls fails w).WatchFilename = w.WatchFilename := by
  induction fails generalizing w with
  | nil => exact ⟨rfl, rfl⟩
  | cons e es ih =>
    obtain ⟨err, herr⟩ := hfail e (List.mem_cons_self e es)
    have hw : (isChangedByStat e w).2.WatchFilename = w.WatchFilename :=
      isChangedByStat_WatchFilename e w
    have hrest : ∀ e2 ∈ es, ∃ err2, e2.stat (isChangedByStat e w).2.WatchFilename = .error err2 := by
      intro e2 h2
      rw [hw]
      exact hfail e2 (List.mem_cons_of_mem e h2)
    obtain ⟨ih1, ih2⟩ := ih (isChangedByStat e w).2 hrest
    rw [polls, ih1, ih2, hw, isChangedByStat_of_error e w err herr]
    exact ⟨rfl, rfl⟩

/-- C2: from an unset baseline, after any number of polls whose stat fails
(each of them reporting no change and leaving the baseline unset), the poll
that sees the first successful stat `S` reports no change, whatever `S` holds,
and stores `S` as the baseline. -/
theorem first_successful_stat_stores_baseline (w : World) (fails : List Env) (env : Env)
    (S : FileInfo)
    (hunset : w.startFileInfo = none)
    (hfail : ∀ e ∈ fails, ∃ err, e.stat w.WatchFilename = .error err)
    (hok : env.stat w.WatchFilename = .ok S) :
    (polls fails w).startFileInfo = none
      ∧ isChangedByStat env (polls fails w)
          = (false, { polls fails w with startFileInfo := some S }) := by
  obtain ⟨h1, h2⟩ := polls_of_failures fails w hfail
  have hnone : (polls fails w).startFileInfo = none := h1.trans hunset
  have hs : env.stat (polls fails w).WatchFilename = .ok S := by rw [h2]; exact hok
  refine ⟨hnone, ?_⟩
  unfold isChangedByStat
  rw [hs, hnone]

/-- C2 at a concrete run: two failed stats, then a successful one. -/
theorem first_successful_stat_stores_baseline_witness :
    startWorld.startFileInfo = none
      ∧ (∀ e ∈ [deadEnv, deadEnv], ∃ err, e.stat startWorld.WatchFilename = .error err)
      ∧ (statEnv (snapshot 7 9)).stat startWorld.WatchFilename = .ok (snapshot 7 9)
      ∧ (isChangedByStat (statEnv (snapshot 7 9)) (polls [deadEnv, deadEnv] startWorld)).1 = false
      ∧ (isChangedByStat (statEnv (snapshot 7 9)) (polls [deadEnv, deadEnv] startWorld)).2.startFileInfo
          = some (snapshot 7 9) :=
  have hfail : ∀ e ∈ [deadEnv, deadEnv], ∃ err, e.stat startWorld.WatchFilename = .error err := by
    intro e he
    simp only [List.mem_cons, List.mem_singleton, List.mem_nil_iff, or_false, or_self] at he
    subst he
    exact ⟨_, rfl⟩
  have h := first_successful_stat_stores_baseline startWorld [deadEnv, deadEnv]
    (statEnv (snapshot 7 9)) (snapshot 7 9) rfl hfail rfl
  ⟨rfl, hfail, rfl, by rw [h.2], by rw [h.2]⟩

/-- C3: a poll whose stat fails reports no change and only writes a log line:
the baseline, unset or set, is exactly what it was. -/
theorem stat_failure_reports_no_change (w : World) (env : Env) (err : String)
    (hfail : env.stat w.WatchFilename = .error err) :
    isChangedByStat env w
        = (false, w.emit (.sys (.log ("cannot find " ++ w.WatchFilename ++ ": " ++ err))))
      ∧ (isChangedByStat env w).2.startFileInfo = w.startFileInfo
      ∧ (isChangedByStat env w).2.listeners = w.listeners := by
  have h := isChangedByStat_of_error env w err hfail
  refine ⟨h, ?_, ?_⟩ <;> rw [h] <;> rfl

/-- C3 at a concrete input: the watched file is gone after the baseline was taken. -/
theorem stat_failure_reports_no_change_witness :
    deadEnv.stat watchedWorld.WatchFilename = .error "no such file or directory"
      ∧ (isChangedByStat deadEnv watchedWorld).1 = false
      ∧ (isChangedByStat deadEnv watchedWorld).2.startFileInfo = some (snapshot 100 2048) :=
  have h := stat_failure_reports_no_change watchedWorld deadEnv "no such file or directory" rfl
  ⟨rfl, by rw [h.1], h.2.1⟩

/-! ## Traces -/

@[simp] theorem emitAll_nil (w : World) : w.emitAll [] = w := by
  simp [World.emitAll]

@[simp] theorem emit_eq_emitAll (w : World) (e : Event) : w.emit e = w.emitAll [e] := rfl

@[simp] theorem emitAll_emitAll (w : World) (xs ys : List Event) :
    (w.emitAll xs).emitAll ys = w.emitAll (xs ++ ys) := by
  simp [World.emitAll]

@[simp] theorem newEvents_emitAll (w : World) (es : List Event) :
    newEvents w (w.emitAll es) = es := by
  simp [newEvents, World.emitAll]

@[simp] theorem newEvents_self (w : World) : newEvents w w = [] := by
  simp [newEvents]

@[simp] theorem emitAll_listeners (w : World) (es : List Event) :
    (w.emitAll es).listeners = w.listeners := rfl

@[simp] theorem emitAll_startFileInfo (w : World) (es : List Event) :
    (w.emitAll es).startFileInfo = w.startFileInfo := rfl

@[simp] theorem emitAll_WatchFilename (w : World) (es : List Event) :
    (w.emitAll es).WatchFilename = w.WatchFilename := rfl

theorem sendsOf_append (xs ys : List Event) : sendsOf (xs ++ ys) = sendsOf xs ++ sendsOf ys := by
  induction xs with
  | nil => rfl
  | cons x xs ih => cases x <;> simp [sendsOf, ih]

theorem recvsOf_append (xs ys : List Event) : recvsOf (xs ++ ys) = recvsOf xs ++ recvsOf ys := by
  induction xs with
  | nil => rfl
  | cons x xs ih => cases x <;> simp [recvsOf, ih]

@[simp] theorem sendsOf_handshakes (cs : List Chan) : sendsOf (handshakes cs) = cs := by
  induction cs with
  | nil => rfl
  | cons c cs ih => simp [handshakes, sendsOf, ih]

@[simp] theorem recvsOf_handshakes (cs : List Chan) : recvsOf (handshakes cs) = cs := by
  induction cs with
  | nil => rfl
  | cons c cs ih => simp [handshakes, recvsOf, ih]

@[simp] theorem restartCalls_handshakes (cs : List Chan) : restartCalls (handshakes cs) = 0 := by
  induction cs with
  | nil => rfl
  | cons c cs ih => simpa [handshakes, restartCalls] using ih

theorem handshakes_append (xs ys : List Chan) :
    handshakes (xs ++ ys) = handshakes xs ++ handshakes ys := by
  induction xs with
  | nil => rfl
  | cons x xs ih => simp [handshakes, ih]

/-! ## The notifier -/

theorem notifyLoop_all_consume (env : Env) (cs : List Chan) (w : World)
    (hall : ∀ c ∈ cs, env.consumes c = true) :
    notifyLoop env cs w = (.returned, w.emitAll (handshakes cs)) := by
  induction cs generalizing w with
  | nil => simp [notifyLoop, handshakes]
  | cons c cs ih =>
    have hc : env.consumes c = true := hall c (List.mem_cons_self c cs)
    have hcs : ∀ x ∈ cs, env.consumes x = true := fun x hx => hall x (List.mem_cons_of_mem c hx)
    simp [notifyLoop, hc, ih _ hcs, handshakes]

theorem notifyLoop_blocks_at (env : Env) (pre : List Chan) (c : Chan) (post : List Chan)
    (w : World) (hpre : ∀ x ∈ pre, env.consumes x = true) (hc : env.consumes c = false) :
    notifyLoop env (pre ++ c :: post) w
      = (.blocked, w.emitAll (handshakes pre ++ [.send c])) := by
  induction pre generalizing w with
  | nil => simp [notifyLoop, hc, handshakes]
  | cons p pre ih =>
    have hp : env.consumes p = true := hpre p (List.mem_cons_self p pre)
    have hrest : ∀ x ∈ pre, env.consumes x = true :=
      fun x hx => hpre x (List.mem_cons_of_mem p hx)
    simp [notifyLoop, hp, ih _ hrest, handshakes]

/-- C5: when every registered listener reads its channel, one `notify` returns
after N sends, the i-th on the i-th registered channel, each send followed by
its reception before the next send is attempted; every listener (the channels
being distinct) receives exactly one signal; with no listener nothing is sent.
A listener that does not read stops the fan-out at its own send: no send to a
later listener is attempted. -/
theorem notify_delivers_once_in_order (env : Env) (w : World)
    (hall : ∀ c ∈ w.listeners, env.consumes c = true)
    (hdistinct : w.listeners.Nodup) :
    notify env w = (.returned, w.emitAll (handshakes w.listeners))
      ∧ sendsOf (newEvents w (notify env w).2) = w.listeners
      ∧ (sendsOf (newEvents w (notify env w).2)).length = w.listeners.length
      ∧ recvsOf (newEvents w (notify env w).2) = w.listeners
      ∧ (∀ c ∈ w.listeners, (recvsOf (newEvents w (notify env w).2)).count c = 1)
      ∧ (w.listeners = [] → notify env w = (.returned, w))
      ∧ (∀ (env2 : Env) (pre : List Chan) (c : Chan) (post : List Chan),
          w.listeners = pre ++ c :: post → (∀ x ∈ pre, env2.consumes x = true) →
          env2.consumes c = false →
          notify env2 w = (.blocked, w.emitAll (handshakes pre ++ [.send c]))) := by
  have h : notify env w = (.returned, w.emitAll (handshakes w.listeners)) :=
    notifyLoop_all_consume env w.listeners w hall
  refine ⟨h, ?_, ?_, ?_, ?_, ?_, ?_⟩
  · rw [h]; simp
  · rw [h]; simp
  · rw [h]; simp
  · intro c hc
    rw [h]
    simpa using List.count_eq_one_of_mem hdistinct hc
  · intro hnil
    rw [h, hnil]; simp [handshakes]
  · intro env2 pre c post hsplit hpre hc
    unfold notify
    rw [hsplit]
    exact notifyLoop_blocks_at env2 pre c post w hpre hc

/-- C5 at a concrete input: two listeners that both read. -/
theorem notify_delivers_once_in_order_witness :
    (∀ c ∈ listenedWorld.listeners, (statEnv (snapshot 1 1)).consumes c = true)
      ∧ listenedWorld.listeners.Nodup
      ∧ notify (statEnv (snapshot 1 1)) listenedWorld
          = (.returned, listenedWorld.emitAll [.send 0, .recv 0, .send 1, .recv 1]) :=
  ⟨fun _ _ => rfl, by decide,
    (notify_delivers_once_in_order (statEnv (snapshot 1 1)) listenedWorld
      (fun _ _ => rfl) (by decide)).1⟩

/-! ## The registry -/

theorem init_wellFormed (osArgs osEnviron : List String) (filepathAbs : String → String)
    (w0 : World) (h : init osArgs osEnviron filepathAbs = some w0) : w0.WellFormed := by
  cases osArgs with
  | nil => simp [init] at h
  | cons a rest =>
    simp only [init, Option.some.injEq] at h
    subst h
    exact ⟨by simp, by simp⟩

theorem GetNotifier_wellFormed (w : World) (hwf : w.WellFormed) :
    (GetNotifier w).2.WellFormed := by
  obtain ⟨hlt, hnd⟩ := hwf
  constructor
  · intro c hc
    simp only [GetNotifier, List.mem_append, List.mem_singleton] at hc
    rcases hc with hc | hc
    · exact Nat.lt_succ_of_lt (hlt c hc)
    · rw [hc]; exact Nat.lt_succ_self _
  · simp only [GetNotifier]
    rw [List.nodup_append]
    refine ⟨hnd, List.nodup_singleton _, ?_⟩
    intro a ha hb
    rw [List.mem_singleton] at hb
    subst hb
    exact Nat.lt_irrefl _ (hlt _ ha)

/-- C6: `GetNotifier` returns a channel that was not registered before and
leaves the registry equal to the old one followed by that channel: one entry
more, every earlier entry at its position, the returned channel last.  The
baseline, the launch descriptor, the watched file name and the trace are unchanged. -/
theorem GetNotifier_appends_new_channel (w : World) (hwf : w.WellFormed) :
    (GetNotifier w).2.listeners = w.listeners ++ [(GetNotifier w).1]
      ∧ (GetNotifier w).1 ∉ w.listeners
      ∧ (GetNotifier w).2.listeners.length = w.listeners.length + 1
      ∧ (∀ i, i < w.listeners.length → (GetNotifier w).2.listeners[i]? = w.listeners[i]?)
      ∧ (GetNotifier w).2.listeners.getLast? = some (GetNotifier w).1
      ∧ (GetNotifier w).2.startFileInfo = w.startFileInfo
      ∧ (GetNotifier w).2.launch = w.launch
      ∧ (GetNotifier w).2.WatchFilename = w.WatchFilename
      ∧ (GetNotifier w).2.trace = w.trace
      ∧ (GetNotifier w).2.WellFormed := by
  refine ⟨rfl, ?_, ?_, ?_, ?_, rfl, rfl, rfl, rfl, GetNotifier_wellFormed w hwf⟩
  · intro hmem
    exact Nat.lt_irrefl _ (hwf.1 _ hmem)
  · simp [GetNotifier]
  · intro i hi
    simp only [GetNotifier]
    exact List.getElem?_append_left hi
  · simp [GetNotifier]

/-- C6 at a concrete input: a third listener registers. -/
theorem GetNotifier_appends_new_channel_witness :
    listenedWorld.WellFormed
      ∧ GetNotifier listenedWorld = (2, { listenedWorld with listeners := [0, 1, 2], nextChan := 3 })
      ∧ (GetNotifier listenedWorld).1 ∉ listenedWorld.listeners :=
  have hwf : listenedWorld.WellFormed := ⟨by decide, by decide⟩
  ⟨hwf, rfl, (GetNotifier_appends_new_channel listenedWorld hwf).2.1⟩

/-! ## The restart strategy -/

theorem RestartByExec_unresolved (env : Env) (w : World) (err : String)
    (h : env.lookPath w.executablePath = .error err) :
    RestartByExec env w = (.returned, [.log ("Error: " ++ err)]) := by
  simp [RestartByExec, h]

theorem RestartByExec_windows_spawned (env : Env) (w : World) (b : String)
    (hos : env.GOOS = "windows") (hres : env.lookPath w.executablePath = .ok b)
    (hrun : env.run "cmd.exe" ("/C" :: "start" :: b :: w.executableArgs) = none) :
    RestartByExec env w = (.exited 1,
      [.sleep (1 * second), .run "cmd.exe" ("/C" :: "start" :: b :: w.executableArgs),
        .log "exiting ...", .exit 1]) := by
  simp [RestartByExec, RestartUnderWindows, hres, hos, hrun]

theorem RestartByExec_windows_spawn_failed (env : Env) (w : World) (b err : String)
    (hos : env.GOOS = "windows") (hres : env.lookPath w.executablePath = .ok b)
    (hrun : env.run "cmd.exe" ("/C" :: "start" :: b :: w.executableArgs) = some err) :
    RestartByExec env w = (.returned,
      [.sleep (1 * second), .run "cmd.exe" ("/C" :: "start" :: b :: w.executableArgs),
        .log ("error: " ++ b ++ " " ++ err)]) := by
  simp [RestartByExec, RestartUnderWindows, hres, hos, hrun]

theorem RestartByExec_posix (env : Env) (w : World) (b : String)
    (hos : env.GOOS ≠ "windows") (hres : env.lookPath w.executablePath = .ok b) :
    RestartByExec env w =
      match env.exec b w.executableArgs w.executableEnvs with
      | some execErr => (.returned,
          [.sleep (1 * second), .exec b w.executableArgs w.executableEnvs,
            .log ("error: " ++ b ++ " " ++ execErr)])
      | none => (.replaced, [.sleep (1 * second), .exec b w.executableArgs w.executableEnvs]) := by
  simp only [RestartByExec, hres, if_neg hos]
  cases env.exec b w.executableArgs w.executableEnvs <;> simp

/-- C8: `RestartByExec` calls `os.Exit` exactly when the platform is Windows,
the path resolved and the spawn returned no error; the code is then 1 and the
exit is the last effect, after the spawn.  With an unresolved path it returns
after one log line (no delay, no spawn, no image replacement); with a failed
spawn it returns after the delay, the spawn and one log line (no exit, no
image replacement). -/
theorem RestartByExec_exits_iff_windows_spawn_ok (env : Env) (w : World) :
    (∀ code, SysEvent.exit code ∈ (RestartByExec env w).2 ↔
        (code = 1 ∧ env.GOOS = "windows" ∧ ∃ b, env.lookPath w.executablePath = .ok b
          ∧ env.run "cmd.exe" ("/C" :: "start" :: b :: w.executableArgs) = none))
      ∧ (∀ code, (RestartByExec env w).1 = .exited code ↔
          SysEvent.exit code ∈ (RestartByExec env w).2)
      ∧ (∀ b, env.GOOS = "windows" → env.lookPath w.executablePath = .ok b →
          env.run "cmd.exe" ("/C" :: "start" :: b :: w.executableArgs) = none →
          RestartByExec env w = (.exited 1,
            [.sleep (1 * second), .run "cmd.exe" ("/C" :: "start" :: b :: w.executableArgs),
              .log "exiting ...", .exit 1]))
      ∧ (∀ err, env.lookPath w.executablePath = .error err →
          RestartByExec env w = (.returned, [.log ("Error: " ++ err)]))
      ∧ (∀ b err, env.GOOS = "windows" → env.lookPath w.executablePath = .ok b →
          env.run "cmd.exe" ("/C" :: "start" :: b :: w.executableArgs) = some err →
          RestartByExec env w = (.returned,
            [.sleep (1 * second), .run "cmd.exe" ("/C" :: "start" :: b :: w.executableArgs),
              .log ("error: " ++ b ++ " " ++ err)])) := by
  refine ⟨?_, ?_, fun b => RestartByExec_windows_spawned env w b,
    fun err => RestartByExec_unresolved env w err,
    fun b err => RestartByExec_windows_spawn_failed env w b err⟩
  · intro code
    cases hres : env.lookPath w.executablePath with
    | error err => simp [RestartByExec_unresolved env w err hres]
    | ok b =>
      by_cases hos : env.GOOS = "windows"
      · cases hrun : env.run "cmd.exe" ("/C" :: "start" :: b :: w.executableArgs) with
        | none =>
          rw [RestartByExec_windows_spawned env w b hos hres hrun]
          simp [hos, hrun, eq_comm]
        | some err =>
          rw [RestartByExec_windows_spawn_failed env w b err hos hres hrun]
          simp [hrun]
      · rw [RestartByExec_posix env w b hos hres]
        cases env.exec b w.executableArgs w.executableEnvs <;> simp [hos]
  · intro code
    cases hres : env.lookPath w.executablePath with
    | error err => simp [RestartByExec_unresolved env w err hres]
    | ok b =>
      by_cases hos : env.GOOS = "windows"
      · cases hrun : env.run "cmd.exe" ("/C" :: "start" :: b :: w.executableArgs) with
        | none =>
          rw [RestartByExec_windows_spawned env w b hos hres hrun]
          simp [eq_comm]
        | some err =>
          rw [RestartByExec_windows_spawn_failed env w b err hos hres hrun]
          simp
      · rw [RestartByExec_posix env w b hos hres]
        cases env.exec b w.executableArgs w.executableEnvs <;> simp

/-- C9: the command `RestartUnderWindows` runs is `cmd.exe /C start b` followed
by the whole captured argument list, program name `a0` included: the words
after `start` are `b, a0, a1, ..., an`, never `b, a1, ..., an`. -/
theorem RestartUnderWindows_repeats_program_name (env : Env) (w : World) (b a0 : String)
    (rest : List String) :
    (RestartUnderWindows env { w with executableArgs := a0 :: rest } b).2.head?
        = some (.run "cmd.exe" ("/C" :: "start" :: b :: a0 :: rest))
      ∧ b :: a0 :: rest ≠ b :: rest
      ∧ (RestartUnderWindows windowsEnv startWorld "/srv/app.exe").2
          = [.run "cmd.exe" ["/C", "start", "/srv/app.exe", "app", "-v"]] := by
  refine ⟨?_, ?_, rfl⟩
  · simp only [RestartUnderWindows]
    cases env.run "cmd.exe" (["/C", "start", b] ++ a0 :: rest) <;> rfl
  · intro h
    have hlen := congrArg List.length h
    simp at hlen

/-! ## One tick of the watcher -/

@[simp] theorem sendsOf_sys (es : List SysEvent) : sendsOf (es.map .sys) = [] := by
  induction es with
  | nil => rfl
  | cons e es ih => simpa [sendsOf] using ih

@[simp] theorem recvsOf_sys (es : List SysEvent) : recvsOf (es.map .sys) = [] := by
  induction es with
  | nil => rfl
  | cons e es ih => simpa [recvsOf] using ih

@[simp] theorem restartCalls_sys (es : List SysEvent) : restartCalls (es.map .sys) = 0 := by
  induction es with
  | nil => rfl
  | cons e es ih => simpa [restartCalls] using ih

theorem restartCalls_append (xs ys : List Event) :
    restartCalls (xs ++ ys) = restartCalls xs + restartCalls ys := by
  simp [restartCalls]

/-- Either every channel of the list is read, or the list splits at the first channel that is not. -/
theorem consumes_all_or_first_refusal (env : Env) (cs : List Chan) :
    (∀ c ∈ cs, env.consumes c = true) ∨
      ∃ pre c post, cs = pre ++ c :: post ∧ (∀ x ∈ pre, env.consumes x = true)
        ∧ env.consumes c = false := by
  induction cs with
  | nil => exact Or.inl (by simp)
  | cons a cs ih =>
    by_cases ha : env.consumes a = true
    · rcases ih with hall | ⟨pre, c, post, hsplit, hpre, hc⟩
      · left
        intro x hx
        rcases List.mem_cons.mp hx with hx | hx
        · rw [hx]; exact ha
        · exact hall x hx
      · right
        refine ⟨a :: pre, c, post, by rw [hsplit]; rfl, ?_, hc⟩
        intro x hx
        rcases List.mem_cons.mp hx with hx | hx
        · rw [hx]; exact ha
        · exact hpre x hx
    · right
      exact ⟨[], a, cs, rfl, by simp, by simpa using ha⟩

theorem notify_returned_iff (env : Env) (w : World) :
    (notify env w).1 = .returned ↔ ∀ c ∈ w.listeners, env.consumes c = true := by
  constructor
  · intro h
    rcases consumes_all_or_first_refusal env w.listeners with hall | ⟨pre, c, post, hsplit, hpre, hc⟩
    · exact hall
    · have hb := notifyLoop_blocks_at env pre c post w hpre hc
      rw [← hsplit] at hb
      unfold notify at h
      rw [hb] at h
      cases h
  · intro hall
    unfold notify
    rw [notifyLoop_all_consume env w.listeners w hall]

theorem isChanged_true_world (env : Env) (w : World) (h : (isChanged env w).1 = true) :
    (isChanged env w).2 = w := by
  unfold isChanged isChangedByStat at *
  cases hs : env.stat w.WatchFilename with
  | error err => rw [hs] at h; cases h
  | ok fileinfo =>
    rw [hs] at h
    cases hb : w.startFileInfo with
    | none => rw [hb] at h; cases h
    | some start =>
      rw [hb] at h
      dsimp only
      split <;> rfl

theorem isChanged_false_events (env : Env) (w : World) (h : (isChanged env w).1 = false) :
    sendsOf (newEvents w (isChanged env w).2) = []
      ∧ restartCalls (newEvents w (isChanged env w).2) = 0 := by
  unfold isChanged isChangedByStat at *
  cases hs : env.stat w.WatchFilename with
  | error err => simp [sendsOf, restartCalls]
  | ok fileinfo =>
    rw [hs] at h
    cases hb : w.startFileInfo with
    | none => simp [newEvents, sendsOf, restartCalls]
    | some start =>
      rw [hb] at h
      dsimp only at h ⊢
      split
      · rename_i hne
        rw [if_pos hne] at h
        cases h
      · simp [sendsOf, restartCalls]

theorem watcherTick_unchanged (restartFunc : RestartFn) (env : Env) (w : World)
    (h : (isChanged env w).1 = false) :
    watcherTick restartFunc env w = (.returned, (isChanged env w).2) := by
  have hpair : isChanged env w = (false, (isChanged env w).2) := Prod.ext h rfl
  unfold watcherTick
  rw [hpair]

theorem watcherTick_changed_delivered (restartFunc : RestartFn) (env : Env) (w : World)
    (h : (isChanged env w).1 = true) (hall : ∀ c ∈ w.listeners, env.consumes c = true) :
    watcherTick restartFunc env w =
      ((restartFunc env (w.emitAll (handshakes w.listeners ++ [.callRestartFunc]))).1,
        w.emitAll (handshakes w.listeners ++ [.callRestartFunc]
          ++ (restartFunc env (w.emitAll (handshakes w.listeners ++ [.callRestartFunc]))).2.map
              .sys)) := by
  have hpair : isChanged env w = (true, w) := Prod.ext h (isChanged_true_world env w h)
  have hn : notify env w = (.returned, w.emitAll (handshakes w.listeners)) :=
    notifyLoop_all_consume env w.listeners w hall
  unfold watcherTick
  rw [hpair]
  dsimp only
  rw [hn]
  simp

theorem watcherTick_changed_blocked (restartFunc : RestartFn) (env : Env) (w : World)
    (pre : List Chan) (c : Chan) (post : List Chan)
    (h : (isChanged env w).1 = true) (hsplit : w.listeners = pre ++ c :: post)
    (hpre : ∀ x ∈ pre, env.consumes x = true) (hc : env.consumes c = false) :
    watcherTick restartFunc env w = (.blocked, w.emitAll (handshakes pre ++ [.send c])) := by
  have hpair : isChanged env w = (true, w) := Prod.ext h (isChanged_true_world env w h)
  have hn : notify env w = (.blocked, w.emitAll (handshakes pre ++ [.send c])) := by
    unfold notify
    rw [hsplit]
    exact notifyLoop_blocks_at env pre c post w hpre hc
  unfold watcherTick
  rw [hpair]
  dsimp only
  rw [hn]

/-- C4: a tick in which `isChanged` reports false sends to no listener and
does not call `RestartFunc`.  A tick in which it reports true runs `notify`;
once `notify` has returned (every listener has read), the tick calls the
current `RestartFunc` exactly once, after the last reception, and ends as that
call ends; while `notify` has not returned (a listener does not read) the tick
is blocked in it and `RestartFunc` is not called.  The initial value of
`RestartFunc` is `RestartByExec`. -/
theorem watcherTick_notifies_then_restarts (restartFunc : RestartFn) (env : Env) (w : World) :
    ((isChanged env w).1 = false →
        watcherTick restartFunc env w = (.returned, (isChanged env w).2)
        ∧ sendsOf (newEvents w (watcherTick restartFunc env w).2) = []
        ∧ restartCalls (newEvents w (watcherTick restartFunc env w).2) = 0)
      ∧ ((isChanged env w).1 = true → (notify env w).1 = .returned →
        notify env w = (.returned, w.emitAll (handshakes w.listeners))
        ∧ watcherTick restartFunc env w =
            ((restartFunc env (w.emitAll (handshakes w.listeners ++ [.callRestartFunc]))).1,
              w.emitAll (handshakes w.listeners ++ [.callRestartFunc]
                ++ (restartFunc env
                      (w.emitAll (handshakes w.listeners ++ [.callRestartFunc]))).2.map .sys))
        ∧ sendsOf (newEvents w (watcherTick restartFunc env w).2) = w.listeners
        ∧ recvsOf (newEvents w (watcherTick restartFunc env w).2) = w.listeners
        ∧ restartCalls (newEvents w (watcherTick restartFunc env w).2) = 1)
      ∧ ((isChanged env w).1 = true → (notify env w).1 ≠ .returned →
        watcherTick restartFunc env w = notify env w
        ∧ (notify env w).1 = .blocked
        ∧ restartCalls (newEvents w (watcherTick restartFunc env w).2) = 0)
      ∧ RestartFunc = RestartByExec := by
  refine ⟨?_, ?_, ?_, rfl⟩
  · intro h
    have ht := watcherTick_unchanged restartFunc env w h
    have he := isChanged_false_events env w h
    rw [ht]
    exact ⟨rfl, he.1, he.2⟩
  · intro h hret
    have hall := (notify_returned_iff env w).mp hret
    have ht := watcherTick_changed_delivered restartFunc env w h hall
    refine ⟨notifyLoop_all_consume env w.listeners w hall, ht, ?_, ?_, ?_⟩
    · rw [ht]; simp [sendsOf_append, sendsOf]
    · rw [ht]; simp [recvsOf_append, recvsOf]
    · rw [ht]
      dsimp only
      rw [newEvents_emitAll, restartCalls_append, restartCalls_append, restartCalls_handshakes,
        restartCalls_sys]
      rfl
  · intro h hnot
    rcases consumes_all_or_first_refusal env w.listeners with hall | ⟨pre, c, post, hsplit, hpre, hc⟩
    · exact absurd ((notify_returned_iff env w).mpr hall) hnot
    · have ht := watcherTick_changed_blocked restartFunc env w pre c post h hsplit hpre hc
      have hn : notify env w = (.blocked, w.emitAll (handshakes pre ++ [.send c])) := by
        unfold notify
        rw [hsplit]
        exact notifyLoop_blocks_at env pre c post w hpre hc
      rw [ht, hn]
      refine ⟨rfl, rfl, ?_⟩
      dsimp only
      rw [newEvents_emitAll, restartCalls_append, restartCalls_handshakes]
      rfl

/-- C4 at a concrete input: the file changed, two listeners read, and the
default strategy fails to resolve the path. -/
theorem watcherTick_notifies_then_restarts_witness :
    (isChanged (statEnv (snapshot 200 2048)) listenedWorld).1 = true
      ∧ (notify (statEnv (snapshot 200 2048)) listenedWorld).1 = .returned
      ∧ watcherTick RestartFunc (statEnv (snapshot 200 2048)) listenedWorld
          = (.returned, listenedWorld.emitAll
              [.send 0, .recv 0, .send 1, .recv 1, .callRestartFunc,
                .sys (.log "Error: not found")]) :=
  ⟨by decide, rfl,
    ((watcherTick_notifies_then_restarts RestartFunc (statEnv (snapshot 200 2048))
      listenedWorld).2.1 (by decide) rfl).2.1.trans rfl⟩

/-! ## Repeated ticks -/

theorem isChanged_of_differs (env : Env) (w : World) (S0 Sk : FileInfo)
    (hbase : w.startFileInfo = some S0) (hstat : env.stat w.WatchFilename = .ok Sk)
    (hdiff : Sk.ModTime ≠ S0.ModTime ∨ Sk.Size ≠ S0.Size) :
    (isChanged env w).1 = true := by
  unfold isChanged
  rw [isChangedByStat_of_baseline env w S0 Sk hbase hstat]
  exact decide_eq_true hdiff

theorem watcherTick_retry (t : Tick) (w : World) (S0 Sk : FileInfo)
    (hbase : w.startFileInfo = some S0) (hstat : t.env.stat w.WatchFilename = .ok Sk)
    (hdiff : Sk.ModTime ≠ S0.ModTime ∨ Sk.Size ≠ S0.Size)
    (hcons : ∀ c ∈ w.listeners, t.env.consumes c = true)
    (hret : ∀ w2, (t.RestartFunc t.env w2).1 = .returned) :
    watcherTick t.RestartFunc t.env w =
      (.returned, w.emitAll (handshakes w.listeners ++ [.callRestartFunc]
        ++ (t.RestartFunc t.env
              (w.emitAll (handshakes w.listeners ++ [.callRestartFunc]))).2.map .sys)) := by
  have h := isChanged_of_differs t.env w S0 Sk hbase hstat hdiff
  rw [watcherTick_changed_delivered t.RestartFunc t.env w h hcons, hret]

theorem seesChange_of_differs (S0 Sk : FileInfo) (name : String) (t : Tick)
    (hstat : t.env.stat name = .ok Sk)
    (hdiff : Sk.ModTime ≠ S0.ModTime ∨ Sk.Size ≠ S0.Size) :
    seesChange S0 name t = true := by
  unfold seesChange
  rw [hstat]
  exact decide_eq_true hdiff

/-- A tick that sees no change (failed stat, or a snapshot with the time and
size of the baseline) returns after at most a log line. -/
theorem watcherTick_quiet (t : Tick) (w : World) (S0 : FileInfo)
    (hbase : w.startFileInfo = some S0)
    (hquiet : seesChange S0 w.WatchFilename t = false) :
    ∃ evs : List SysEvent,
      watcherTick t.RestartFunc t.env w = (.returned, w.emitAll (evs.map .sys)) := by
  unfold seesChange at hquiet
  cases hs : t.env.stat w.WatchFilename with
  | error err =>
    have hc : isChanged t.env w
        = (false, w.emit (.sys (.log ("cannot find " ++ w.WatchFilename ++ ": " ++ err)))) :=
      isChangedByStat_of_error t.env w err hs
    have h1 : (isChanged t.env w).1 = false := by rw [hc]
    refine ⟨[.log ("cannot find " ++ w.WatchFilename ++ ": " ++ err)], ?_⟩
    rw [watcherTick_unchanged t.RestartFunc t.env w h1, hc]
    rfl
  | ok Sk =>
    rw [hs] at hquiet
    dsimp only at hquiet
    have hc : isChanged t.env w
        = (decide (Sk.ModTime ≠ S0.ModTime ∨ Sk.Size ≠ S0.Size), w) :=
      isChangedByStat_of_baseline t.env w S0 Sk hbase hs
    rw [hquiet] at hc
    have h1 : (isChanged t.env w).1 = false := by rw [hc]
    refine ⟨[], ?_⟩
    rw [watcherTick_unchanged t.RestartFunc t.env w h1, hc]
    simp

theorem seesChange_ok (S0 : FileInfo) (name : String) (t : Tick)
    (h : seesChange S0 name t = true) :
    ∃ Sk, t.env.stat name = .ok Sk ∧ (Sk.ModTime ≠ S0.ModTime ∨ Sk.Size ≠ S0.Size) := by
  unfold seesChange at h
  cases hs : t.env.stat name with
  | error err => rw [hs] at h; cases h
  | ok Sk =>
    rw [hs] at h
    exact ⟨Sk, rfl, of_decide_eq_true h⟩

theorem watcher_run_trace (ticks : List Tick) (w : World) (S0 : FileInfo)
    (hbase : w.startFileInfo = some S0)
    (hcons : ∀ t ∈ ticks, seesChange S0 w.WatchFilename t = true →
      ∀ c ∈ w.listeners, t.env.consumes c = true)
    (hret : ∀ t ∈ ticks, seesChange S0 w.WatchFilename t = true →
      ∀ w2, (t.RestartFunc t.env w2).1 = .returned) :
    ∃ evs, watcher ticks w = (.returned, w.emitAll evs)
      ∧ restartCalls evs = (ticks.filter (seesChange S0 w.WatchFilename)).length
      ∧ sendsOf evs
          = rounds (ticks.filter (seesChange S0 w.WatchFilename)).length w.listeners
      ∧ recvsOf evs
          = rounds (ticks.filter (seesChange S0 w.WatchFilename)).length w.listeners := by
  induction ticks generalizing w with
  | nil => exact ⟨[], by simp [watcher], rfl, rfl, rfl⟩
  | cons t ts ih =>
    have hmem : t ∈ t :: ts := List.mem_cons_self t ts
    cases hsee : seesChange S0 w.WatchFilename t with
    | true =>
      obtain ⟨Sk, hs, hd⟩ := seesChange_ok S0 w.WatchFilename t hsee
      have htick := watcherTick_retry t w S0 Sk hbase hs hd (hcons t hmem hsee)
        (hret t hmem hsee)
      generalize hevs : (handshakes w.listeners ++ [Event.callRestartFunc]
          ++ (t.RestartFunc t.env
                (w.emitAll (handshakes w.listeners ++ [.callRestartFunc]))).2.map .sys) = e1
        at htick
      have hcalls : restartCalls e1 = 1 := by
        rw [← hevs, restartCalls_append, restartCalls_append, restartCalls_handshakes,
          restartCalls_sys]
        rfl
      have hsends : sendsOf e1 = w.listeners := by
        rw [← hevs]; simp [sendsOf_append, sendsOf]
      have hrecvs : recvsOf e1 = w.listeners := by
        rw [← hevs]; simp [recvsOf_append, recvsOf]
      obtain ⟨e2, hw, hc2, hs2, hr2⟩ := ih (w.emitAll e1) hbase
        (fun t2 h2 => hcons t2 (List.mem_cons_of_mem t h2))
        (fun t2 h2 => hret t2 (List.mem_cons_of_mem t h2))
      simp only [emitAll_WatchFilename, emitAll_listeners] at hc2 hs2 hr2
      refine ⟨e1 ++ e2, ?_, ?_, ?_, ?_⟩
      · rw [watcher, htick]
        dsimp only
        rw [hw, emitAll_emitAll]
      · rw [restartCalls_append, hcalls, hc2, List.filter_cons_of_pos hsee, List.length_cons,
          Nat.add_comm]
      · rw [sendsOf_append, hsends, hs2, List.filter_cons_of_pos hsee, List.length_cons]; rfl
      · rw [recvsOf_append, hrecvs, hr2, List.filter_cons_of_pos hsee, List.length_cons]; rfl
    | false =>
      obtain ⟨q, htick⟩ := watcherTick_quiet t w S0 hbase hsee
      obtain ⟨e2, hw, hc2, hs2, hr2⟩ := ih (w.emitAll (q.map .sys)) hbase
        (fun t2 h2 => hcons t2 (List.mem_cons_of_mem t h2))
        (fun t2 h2 => hret t2 (List.mem_cons_of_mem t h2))
      simp only [emitAll_WatchFilename, emitAll_listeners] at hc2 hs2 hr2
      have hf : List.filter (seesChange S0 w.WatchFilename) (t :: ts)
          = List.filter (seesChange S0 w.WatchFilename) ts :=
        List.filter_cons_of_neg (by rw [hsee]; exact Bool.false_ne_true)
      refine ⟨q.map .sys ++ e2, ?_, ?_, ?_, ?_⟩
      · rw [watcher, htick]
        dsimp only
        rw [hw, emitAll_emitAll]
      · rw [restartCalls_append, restartCalls_sys, hc2, hf, Nat.zero_add]
      · rw [sendsOf_append, sendsOf_sys, hs2, hf, List.nil_append]
      · rw [recvsOf_append, recvsOf_sys, hr2, hf, List.nil_append]

theorem isChangedByStat_frame (env : Env) (w : World) :
    (isChangedByStat env w).2.launch = w.launch
      ∧ (isChangedByStat env w).2.listeners = w.listeners
      ∧ (isChangedByStat env w).2.nextChan = w.nextChan := by
  unfold isChangedByStat
  cases env.stat w.WatchFilename with
  | error err => exact ⟨rfl, rfl, rfl⟩
  | ok fileinfo =>
    cases w.startFileInfo with
    | none => exact ⟨rfl, rfl, rfl⟩
    | some start => dsimp only; split <;> exact ⟨rfl, rfl, rfl⟩

theorem notify_frame (env : Env) (w : World) : ∃ evs, (notify env w).2 = w.emitAll evs := by
  rcases consumes_all_or_first_refusal env w.listeners with hall | ⟨pre, c, post, hsplit, hpre, hc⟩
  · exact ⟨_, congrArg Prod.snd (notifyLoop_all_consume env w.listeners w hall)⟩
  · refine ⟨handshakes pre ++ [.send c], ?_⟩
    unfold notify
    rw [hsplit]
    exact congrArg Prod.snd (notifyLoop_blocks_at env pre c post w hpre hc)

theorem watcherTick_frame (restartFunc : RestartFn) (env : Env) (w : World) :
    (watcherTick restartFunc env w).2.launch = w.launch
      ∧ (watcherTick restartFunc env w).2.listeners = w.listeners
      ∧ (watcherTick restartFunc env w).2.nextChan = w.nextChan := by
  cases h : (isChanged env w).1 with
  | false =>
    rw [watcherTick_unchanged restartFunc env w h]
    exact isChangedByStat_frame env w
  | true =>
    rcases consumes_all_or_first_refusal env w.listeners with hall | ⟨pre, c, post, hsplit, hpre, hc⟩
    · rw [watcherTick_changed_delivered restartFunc env w h hall]
      exact ⟨rfl, rfl, rfl⟩
    · rw [watcherTick_changed_blocked restartFunc env w pre c post h hsplit hpre hc]
      exact ⟨rfl, rfl, rfl⟩

/-- Only an in-place write of the host changes the launch descriptor, and it
changes the arguments only. -/
theorem Op.apply_launch (op : Op) (w : World) :
    (op.apply w).executableArgs = argWrites [op] w.executableArgs
      ∧ (op.apply w).executableEnvs = w.executableEnvs
      ∧ (op.apply w).executablePath = w.executablePath := by
  cases op with
  | getNotifier => exact ⟨rfl, rfl, rfl⟩
  | setWatchFilename name => exact ⟨rfl, rfl, rfl⟩
  | writeOsArg i v => exact ⟨rfl, rfl, rfl⟩
  | tick t =>
    have h := (watcherTick_frame t.RestartFunc t.env w).1
    simp only [World.launch, Prod.mk.injEq] at h
    exact ⟨h.1, h.2.1, h.2.2⟩

theorem Op.apply_wellFormed (op : Op) (w : World) (hwf : w.WellFormed) :
    (op.apply w).WellFormed := by
  cases op with
  | getNotifier => exact GetNotifier_wellFormed w hwf
  | setWatchFilename name => exact hwf
  | writeOsArg i v => exact hwf
  | tick t =>
    obtain ⟨_, hl, hn⟩ := watcherTick_frame t.RestartFunc t.env w
    unfold World.WellFormed Op.apply
    rw [hl, hn]
    exact hwf

theorem argWrites_cons (op : Op) (ops : List Op) (a : List String) :
    argWrites (op :: ops) a = argWrites ops (argWrites [op] a) := by
  cases op <;> rfl

theorem applyOps_launch (ops : List Op) (w : World) :
    (applyOps ops w).executableArgs = argWrites ops w.executableArgs
      ∧ (applyOps ops w).executableEnvs = w.executableEnvs
      ∧ (applyOps ops w).executablePath = w.executablePath := by
  induction ops generalizing w with
  | nil => exact ⟨rfl, rfl, rfl⟩
  | cons op ops ih =>
    obtain ⟨h1, h2, h3⟩ := ih (op.apply w)
    obtain ⟨g1, g2, g3⟩ := Op.apply_launch op w
    rw [applyOps, h1, h2, h3, g1, g2, g3, ← argWrites_cons]
    exact ⟨rfl, rfl, rfl⟩

theorem applyOps_wellFormed (ops : List Op) (w : World) (hwf : w.WellFormed) :
    (applyOps ops w).WellFormed := by
  induction ops generalizing w with
  | nil => exact hwf
  | cons op ops ih => exact ih _ (Op.apply_wellFormed op w hwf)

theorem argWrites_length (ops : List Op) (a : List String) :
    (argWrites ops a).length = a.length := by
  induction ops generalizing a with
  | nil => rfl
  | cons op ops ih =>
    rw [argWrites_cons, ih]
    cases op <;> simp [argWrites]

theorem argWrites_unwritten (ops : List Op) (a : List String) (i : Nat)
    (h : ∀ op ∈ ops, op.writesArg i = false) :
    (argWrites ops a)[i]? = a[i]? := by
  induction ops generalizing a with
  | nil => rfl
  | cons op ops ih =>
    have hop := h op (List.mem_cons_self op ops)
    rw [argWrites_cons, ih _ (fun o ho => h o (List.mem_cons_of_mem op ho))]
    cases op with
    | writeOsArg j v =>
      have hne : j ≠ i := by simpa [Op.writesArg] using hop
      simp [argWrites, List.getElem?_set_ne hne]
    | getNotifier => rfl
    | setWatchFilename name => rfl
    | tick t => rfl

theorem argWrites_no_write (ops : List Op) (a : List String)
    (h : ∀ op ∈ ops, ∀ i, op.writesArg i = false) :
    argWrites ops a = a := by
  apply List.ext_getElem?
  intro i
  exact argWrites_unwritten ops a i (fun op hop => h op hop i)

theorem init_launch (osArgs osEnviron : List String) (filepathAbs : String → String)
    (w0 : World) (h : init osArgs osEnviron filepathAbs = some w0) :
    w0.executableArgs = osArgs ∧ w0.executableEnvs = osEnviron := by
  cases osArgs with
  | nil => simp [init] at h
  | cons a rest =>
    simp only [init, Option.some.injEq] at h
    subst h
    exact ⟨rfl, rfl⟩

end Autorestart
